import Mathlib

/-!
# The parser driver of `main.cpp`

`main.cpp` holds one function, `main`, which selects the input of a generated
scanner/parser pair, runs one parse and returns its status.  Everything `main`
talks to is external: the C library (`std::fopen`, `std::perror`,
`std::fclose`) and the generated parser module (`yyparse`, `yyin`).

The embedding below threads the one piece of mutable state `main` touches (the
`yyin` slot) explicitly, and records each external operation `main` performs,
in order, in a trace.  The external operations themselves are parameters
(`Sys`).
-/

namespace MiniCompiler

/-- A `FILE*` value: the null pointer, or a pointer to the stream with the
given identity. -/
inductive FilePtr where
  | null
  | stream (id : Nat)
deriving DecidableEq, Repr

/-- The C test `if (p)` / `if (!p)` on a `FILE*`: true when the pointer is
not null. -/
def FilePtr.toBool : FilePtr → Bool
  | .null => false
  | .stream _ => true

/-- How a call of `extern int yyparse()` ends: it returns an `int` status,
leaving some value in the `yyin` slot (the scanner owns the slot and may
rewrite it), or control leaves the call non-locally (an exception, `exit`,
`abort`, `longjmp`) and never comes back to the caller. -/
inductive ParseOutcome where
  | returned (rc : Int) (yyinAfter : FilePtr)
  | nonLocal
deriving DecidableEq, Repr

/-- The collaborators of `main` that are not defined in `main.cpp`.

* `fopen path mode` is the result of `std::fopen(path, mode)`: null on
  failure, a stream otherwise;
* `strerror path` is the text `std::strerror(errno)` yields right after
  `std::fopen(path, "r")` failed (the operating system's error message);
* `yyparse y` is what the parser entry operation does when it is called
  while the `yyin` slot holds `y`. -/
structure Sys where
  fopen : String → String → FilePtr
  strerror : String → String
  yyparse : FilePtr → ParseOutcome

/-- The external operations `main` performs, as they appear in the source.

* `fopen path mode result` : the call `std::fopen(path, mode)` and its result;
* `setYyin v` : the assignment `yyin = v`;
* `perror s` : the call `std::perror(s)`;
* `yyparse y` : the call `yyparse()`, made while the `yyin` slot holds `y`;
* `fclose f` : the call `std::fclose(f)`. -/
inductive Event where
  | fopen (path : String) (mode : String) (result : FilePtr)
  | setYyin (v : FilePtr)
  | perror (s : String)
  | yyparse (yyinAtCall : FilePtr)
  | fclose (f : FilePtr)
deriving DecidableEq, Repr

/-- How `main` ends: `return code`, or control left `main` non-locally
(propagated out of the `yyparse()` call). -/
inductive Exit where
  | code (rc : Int)
  | nonLocal
deriving DecidableEq, Repr

/-- The state `main` acts on: the global `yyin`, the operations performed so
far (oldest first) and the text written to the diagnostic stream. -/
structure State where
  yyin : FilePtr
  trace : List Event
  diag : String
deriving DecidableEq, Repr

/-- Appends one operation to the trace. -/
def State.emit (s : State) (e : Event) : State :=
  { s with trace := s.trace ++ [e] }

/-- The text `std::perror(s)` writes to the standard error stream, as the C
standard describes it: the string `s` followed by a colon and a space (when
`s` is not empty), then the error message `msg` for the current `errno`, then
a new-line. -/
def perrorText (s : String) (msg : String) : String :=
  (if s = "" then "" else s ++ ": ") ++ msg ++ "\n"

/-- Lines 15-17 of `main.cpp`:
```
int rc = yyparse();
if (yyin) std::fclose(yyin);
return rc;
```
The call is made with the slot as it stands; the slot the `if` reads is the one
the parser left. A non-local exit of the call skips both statements after
it. -/
def parseAndClose (sys : Sys) (s : State) : Exit × State :=
  let s1 := s.emit (.yyparse s.yyin)
  match sys.yyparse s.yyin with
  | .nonLocal => (.nonLocal, s1)
  | .returned rc yyinAfter =>
    let s2 := { s1 with yyin := yyinAfter }
    let s3 := if s2.yyin.toBool then s2.emit (.fclose s2.yyin) else s2
    (.code rc, s3)

/-- The function `main` of `main.cpp`, run from state `s`; `argc` is the length
of `argv`.
```
if (argc > 1) {
    yyin = std::fopen(argv[1], "r");
    if (!yyin) { std::perror("fopen"); return 1; }
}
... (parseAndClose)
``` -/
def mainFrom (sys : Sys) (argv : List String) (s : State) : Exit × State :=
  let argc := argv.length
  if h : argc > 1 then
    let f := sys.fopen argv[1] "r"
    let s1 := s.emit (.fopen argv[1] "r" f)
    let s2 := { s1 with yyin := f }.emit (.setYyin f)
    if !s2.yyin.toBool then
      let s3 := { s2 with diag := s2.diag ++ perrorText "fopen" (sys.strerror argv[1]) }.emit
        (.perror "fopen")
      (.code 1, s3)
    else
      parseAndClose sys s2
  else
    parseAndClose sys s

/-- One process run: `main` started with the `yyin` slot holding `yyin0`, an
empty trace and nothing written to the diagnostic stream. -/
def main (sys : Sys) (argv : List String) (yyin0 : FilePtr) : Exit × State :=
  mainFrom sys argv { yyin := yyin0, trace := [], diag := "" }

/-! ## Observations on a trace -/

/-- The value the `yyin` slot held at each call of `yyparse()`, in order. -/
def parseCalls : List Event → List FilePtr
  | [] => []
  | .yyparse y :: es => y :: parseCalls es
  | _ :: es => parseCalls es

/-- The argument of each `std::fclose` call, in order. -/
def closes : List Event → List FilePtr
  | [] => []
  | .fclose f :: es => f :: closes es
  | _ :: es => closes es

/-- Path, mode and result of each `std::fopen` call, in order. -/
def opens : List Event → List (String × String × FilePtr)
  | [] => []
  | .fopen p m r :: es => (p, m, r) :: opens es
  | _ :: es => opens es

/-- The value of each assignment to `yyin` made by `main`, in order. -/
def slotWrites : List Event → List FilePtr
  | [] => []
  | .setYyin v :: es => v :: slotWrites es
  | _ :: es => slotWrites es

/-- Open-file accounting, one step: a successful `fopen` adds its stream, an
`fclose` removes its argument. -/
def account (acc : List FilePtr) : Event → List FilePtr
  | .fopen _ _ (.stream n) => acc ++ [.stream n]
  | .fclose f => acc.filter (fun g => g ≠ f)
  | _ => acc

/-- The streams opened during the trace and not closed by its end. -/
def leftOpen (tr : List Event) : List FilePtr :=
  tr.foldl account []

/-! ## Sample collaborators -/

/-- A file system holding the single readable file `valid.txt`, and a scanner
in the manner of flex: when the slot is null at the first read it binds the
slot to standard input (stream `0`); the parse accepts standard input and
`valid.txt` (stream `3`) with status `0`. -/
def flexSys : Sys where
  fopen := fun path _ => if path = "valid.txt" then .stream 3 else .null
  strerror := fun _ => "No such file or directory"
  yyparse := fun y =>
    match y with
    | .null => .returned 0 (.stream 0)
    | .stream n => .returned 0 (.stream n)

/-- The same file system with a parser that rejects every input with status
`1` and leaves the slot alone. -/
def rejectSys : Sys where
  fopen := fun path _ => if path = "valid.txt" then .stream 3 else .null
  strerror := fun _ => "No such file or directory"
  yyparse := fun y => .returned 1 y

/-- The same file system with a parser that never returns to its caller (for
instance an error action that calls `exit`). -/
def exitingSys : Sys where
  fopen := fun path _ => if path = "valid.txt" then .stream 3 else .null
  strerror := fun _ => "No such file or directory"
  yyparse := fun _ => .nonLocal

/-! ## How `main` unfolds along each path -/

theorem mainFrom_noFile (sys : Sys) (argv : List String) (s : State)
    (hargc : argv.length ≤ 1) : mainFrom sys argv s = parseAndClose sys s := by
  have h : ¬ argv.length > 1 := by omega
  simp [mainFrom, h]

theorem mainFrom_openFails (sys : Sys) (argv : List String) (s : State)
    (hargc : 1 < argv.length) (hfail : sys.fopen argv[1] "r" = FilePtr.null) :
    mainFrom sys argv s =
      (Exit.code 1,
        { yyin := FilePtr.null
          trace := s.trace ++ [Event.fopen argv[1] "r" FilePtr.null] ++
            [Event.setYyin FilePtr.null] ++ [Event.perror "fopen"]
          diag := s.diag ++ perrorText "fopen" (sys.strerror argv[1]) }) := by
  have h : argv.length > 1 := hargc
  simp [mainFrom, h, hfail, State.emit, FilePtr.toBool]

theorem mainFrom_openOk (sys : Sys) (argv : List String) (s : State) (n : Nat)
    (hargc : 1 < argv.length) (hopen : sys.fopen argv[1] "r" = FilePtr.stream n) :
    mainFrom sys argv s =
      parseAndClose sys
        { yyin := FilePtr.stream n
          trace := s.trace ++ [Event.fopen argv[1] "r" (FilePtr.stream n)] ++
            [Event.setYyin (FilePtr.stream n)]
          diag := s.diag } := by
  have h : argv.length > 1 := hargc
  simp [mainFrom, h, hopen, State.emit, FilePtr.toBool]

theorem parseAndClose_nonLocal (sys : Sys) (s : State)
    (hparse : sys.yyparse s.yyin = ParseOutcome.nonLocal) :
    parseAndClose sys s = (Exit.nonLocal, s.emit (Event.yyparse s.yyin)) := by
  simp [parseAndClose, hparse]

theorem parseAndClose_returned_null (sys : Sys) (s : State) (rc : Int)
    (hparse : sys.yyparse s.yyin = ParseOutcome.returned rc FilePtr.null) :
    parseAndClose sys s =
      (Exit.code rc,
        { yyin := FilePtr.null, trace := s.trace ++ [Event.yyparse s.yyin], diag := s.diag }) := by
  simp [parseAndClose, hparse, State.emit, FilePtr.toBool]

theorem parseAndClose_returned_stream (sys : Sys) (s : State) (rc : Int) (m : Nat)
    (hparse : sys.yyparse s.yyin = ParseOutcome.returned rc (FilePtr.stream m)) :
    parseAndClose sys s =
      (Exit.code rc,
        { yyin := FilePtr.stream m
          trace := s.trace ++ [Event.yyparse s.yyin] ++ [Event.fclose (FilePtr.stream m)]
          diag := s.diag }) := by
  simp [parseAndClose, hparse, State.emit, FilePtr.toBool]

theorem FilePtr.eq_null_or_stream (f : FilePtr) : f = FilePtr.null ∨ ∃ n, f = FilePtr.stream n := by
  cases f with
  | null => exact Or.inl rfl
  | stream n => exact Or.inr ⟨n, rfl⟩

theorem perrorText_ne_empty (s msg : String) : perrorText s msg ≠ "" := by
  intro h
  have hl := congrArg String.length h
  have hnl : "\n".length = 1 := by decide
  simp only [perrorText, String.length_append, hnl] at hl
  have h0 : "".length = 0 := by decide
  omega

theorem parseAndClose_trace (sys : Sys) (s : State) :
    ∃ post, (parseAndClose sys s).2.trace = s.trace ++ [Event.yyparse s.yyin] ++ post ∧
      parseCalls post = [] ∧ opens post = [] ∧ slotWrites post = [] := by
  cases hp : sys.yyparse s.yyin with
  | nonLocal =>
    refine ⟨[], ?_, rfl, rfl, rfl⟩
    simp [parseAndClose_nonLocal sys s hp, State.emit]
  | returned rc y =>
    cases y with
    | null =>
      refine ⟨[], ?_, rfl, rfl, rfl⟩
      simp [parseAndClose_returned_null sys s rc hp]
    | stream m =>
      refine ⟨[Event.fclose (FilePtr.stream m)], ?_, rfl, rfl, rfl⟩
      simp [parseAndClose_returned_stream sys s rc m hp]

theorem parseAndClose_shape (sys : Sys) (s : State) :
    (sys.yyparse s.yyin = ParseOutcome.nonLocal ∧
        (parseAndClose sys s).2.trace = s.trace ++ [Event.yyparse s.yyin]) ∨
      (∃ rc yyinAfter, sys.yyparse s.yyin = ParseOutcome.returned rc yyinAfter ∧
        (parseAndClose sys s).2.yyin = yyinAfter ∧
        (parseAndClose sys s).2.trace = s.trace ++ [Event.yyparse s.yyin] ++
          (if yyinAfter = FilePtr.null then [] else [Event.fclose yyinAfter])) := by
  cases hp : sys.yyparse s.yyin with
  | nonLocal =>
    left
    simp [parseAndClose_nonLocal sys s hp, State.emit]
  | returned rc y =>
    right
    refine ⟨rc, y, rfl, ?_⟩
    cases y with
    | null => simp [parseAndClose_returned_null sys s rc hp]
    | stream m => simp [parseAndClose_returned_stream sys s rc m hp]

theorem closes_append (xs ys : List Event) : closes (xs ++ ys) = closes xs ++ closes ys := by
  induction xs with
  | nil => rfl
  | cons e es ih => cases e <;> simp [closes, ih]

theorem parseCalls_append (xs ys : List Event) :
    parseCalls (xs ++ ys) = parseCalls xs ++ parseCalls ys := by
  induction xs with
  | nil => rfl
  | cons e es ih => cases e <;> simp [parseCalls, ih]

theorem closes_tail (yyinAfter : FilePtr) :
    closes (if yyinAfter = FilePtr.null then [] else [Event.fclose yyinAfter]) =
      (if yyinAfter = FilePtr.null then [] else [yyinAfter]) := by
  cases yyinAfter <;> simp [closes]

theorem parseCalls_tail (yyinAfter : FilePtr) :
    parseCalls (if yyinAfter = FilePtr.null then [] else [Event.fclose yyinAfter]) = [] := by
  cases yyinAfter <;> simp [parseCalls]

/-- Every run of `main` is of one of three kinds: the open fails; the parser is
called on the bound slot value `y` and does not return; the parser is called on
`y` and returns. The bound value is the initial slot value when there is no
file argument and the result of `fopen(argv[1], "r")` otherwise. -/
theorem main_run_kinds (sys : Sys) (argv : List String) (yyin0 : FilePtr) :
    ((∃ h : 1 < argv.length, sys.fopen argv[1] "r" = FilePtr.null) ∧
        parseCalls (main sys argv yyin0).2.trace = [] ∧
        closes (main sys argv yyin0).2.trace = []) ∨
      (∃ y, ((argv.length ≤ 1 ∧ y = yyin0) ∨
            (∃ h : 1 < argv.length, sys.fopen argv[1] "r" ≠ FilePtr.null ∧
              y = sys.fopen argv[1] "r")) ∧
          parseCalls (main sys argv yyin0).2.trace = [y] ∧
          ((sys.yyparse y = ParseOutcome.nonLocal ∧
              closes (main sys argv yyin0).2.trace = []) ∨
            (∃ rc yyinAfter, sys.yyparse y = ParseOutcome.returned rc yyinAfter ∧
              (main sys argv yyin0).2.yyin = yyinAfter ∧
              closes (main sys argv yyin0).2.trace =
                (if yyinAfter = FilePtr.null then [] else [yyinAfter])))) := by
  by_cases hargc : 1 < argv.length
  · rcases FilePtr.eq_null_or_stream (sys.fopen argv[1] "r") with hn | ⟨n, hn⟩
    · left
      rw [main, mainFrom_openFails sys argv _ hargc hn]
      exact ⟨⟨hargc, hn⟩, by simp [parseCalls], by simp [closes]⟩
    · right
      refine ⟨FilePtr.stream n, Or.inr ⟨hargc, by simp [hn], hn.symm⟩, ?_⟩
      rw [main, mainFrom_openOk sys argv _ n hargc hn]
      rcases parseAndClose_shape sys
        { yyin := FilePtr.stream n
          trace := [] ++ [Event.fopen argv[1] "r" (FilePtr.stream n)] ++
            [Event.setYyin (FilePtr.stream n)]
          diag := "" } with ⟨hp, htr⟩ | ⟨rc, ya, hp, hy, htr⟩
      · rw [htr]
        exact ⟨by simp [parseCalls], Or.inl ⟨hp, by simp [closes]⟩⟩
      · rw [htr, hy]
        refine ⟨?_, Or.inr ⟨rc, ya, hp, rfl, ?_⟩⟩
        · rw [parseCalls_append, parseCalls_tail]
          simp [parseCalls]
        · rw [closes_append, closes_tail]
          simp [closes]
  · have hle : argv.length ≤ 1 := by omega
    right
    refine ⟨yyin0, Or.inl ⟨hle, rfl⟩, ?_⟩
    rw [main, mainFrom_noFile sys argv _ hle]
    rcases parseAndClose_shape sys { yyin := yyin0, trace := [], diag := "" } with
      ⟨hp, htr⟩ | ⟨rc, ya, hp, hy, htr⟩
    · rw [htr]
      exact ⟨by simp [parseCalls], Or.inl ⟨hp, by simp [closes]⟩⟩
    · rw [htr, hy]
      refine ⟨?_, Or.inr ⟨rc, ya, hp, rfl, ?_⟩⟩
      · rw [parseCalls_append, parseCalls_tail]
        simp [parseCalls]
      · rw [closes_append, closes_tail]
        simp [closes]

theorem parseAndClose_post (sys : Sys) (s : State) :
    ∃ post, (parseAndClose sys s).2.trace = s.trace ++ [Event.yyparse s.yyin] ++ post ∧
      parseCalls post = [] ∧ opens post = [] ∧ slotWrites post = [] ∧
      (post = [] ∨ ∃ f, post = [Event.fclose f]) := by
  cases hp : sys.yyparse s.yyin with
  | nonLocal =>
    refine ⟨[], ?_, rfl, rfl, rfl, Or.inl rfl⟩
    simp [parseAndClose_nonLocal sys s hp, State.emit]
  | returned rc y =>
    cases y with
    | null =>
      refine ⟨[], ?_, rfl, rfl, rfl, Or.inl rfl⟩
      simp [parseAndClose_returned_null sys s rc hp]
    | stream m =>
      refine ⟨[Event.fclose (FilePtr.stream m)], ?_, rfl, rfl, rfl, Or.inr ⟨_, rfl⟩⟩
      simp [parseAndClose_returned_stream sys s rc m hp]

/-! ## The driver contract -/

/-- C1: when there is an argument beyond the program name and opening it fails,
`main` returns exit code 1, writes a non-empty text to the diagnostic stream
and never calls `yyparse`. -/
theorem open_failure_exits_one_without_parse (sys : Sys) (argv : List String)
    (yyin0 : FilePtr) (hargc : 1 < argv.length)
    (hfail : sys.fopen argv[1] "r" = FilePtr.null) :
    (main sys argv yyin0).1 = Exit.code 1 ∧
      (main sys argv yyin0).2.diag ≠ "" ∧
      parseCalls (main sys argv yyin0).2.trace = [] := by
  rw [main, mainFrom_openFails sys argv _ hargc hfail]
  refine ⟨rfl, ?_, ?_⟩
  · simpa using perrorText_ne_empty "fopen" (sys.strerror argv[1])
  · simp [parseCalls]

theorem open_failure_exits_one_without_parse_witness :
    1 < ["prog", "missing.txt"].length ∧
      flexSys.fopen ["prog", "missing.txt"][1] "r" = FilePtr.null ∧
      ((main flexSys ["prog", "missing.txt"] FilePtr.null).1 = Exit.code 1 ∧
        (main flexSys ["prog", "missing.txt"] FilePtr.null).2.diag ≠ "" ∧
        parseCalls (main flexSys ["prog", "missing.txt"] FilePtr.null).2.trace = []) :=
  ⟨by decide, by decide,
    open_failure_exits_one_without_parse flexSys ["prog", "missing.txt"] FilePtr.null
      (by decide) (by decide)⟩

/-- C2: when no open fails (no file argument, or the first argument opens) and
the parser, called on the slot as bound, returns the status `rc`, `main`
returns exactly `rc`. -/
theorem exit_code_is_parser_status (sys : Sys) (argv : List String) (yyin0 : FilePtr)
    (rc : Int) (yyinAfter : FilePtr)
    (hrun : (argv.length ≤ 1 ∧ sys.yyparse yyin0 = ParseOutcome.returned rc yyinAfter) ∨
      (∃ h : 1 < argv.length, sys.fopen argv[1] "r" ≠ FilePtr.null ∧
        sys.yyparse (sys.fopen argv[1] "r") = ParseOutcome.returned rc yyinAfter)) :
    (main sys argv yyin0).1 = Exit.code rc := by
  rcases hrun with ⟨hargc, hparse⟩ | ⟨hargc, hopen, hparse⟩
  · rw [main, mainFrom_noFile sys argv _ hargc]
    simp [parseAndClose, hparse]
  · rcases FilePtr.eq_null_or_stream (sys.fopen argv[1] "r") with hn | ⟨n, hn⟩
    · exact absurd hn hopen
    · rw [main, mainFrom_openOk sys argv _ n hargc hn]
      rw [hn] at hparse
      simp [parseAndClose, hparse]

theorem exit_code_is_parser_status_witness :
    ((["prog"].length ≤ 1 ∧
        rejectSys.yyparse FilePtr.null = ParseOutcome.returned 1 FilePtr.null) ∨
      (∃ h : 1 < ["prog"].length, rejectSys.fopen ["prog"][1] "r" ≠ FilePtr.null ∧
        rejectSys.yyparse (rejectSys.fopen ["prog"][1] "r") =
          ParseOutcome.returned 1 FilePtr.null)) ∧
      (main rejectSys ["prog"] FilePtr.null).1 = Exit.code 1 :=
  ⟨Or.inl ⟨by decide, rfl⟩,
    exit_code_is_parser_status rejectSys ["prog"] FilePtr.null 1 FilePtr.null
      (Or.inl ⟨by decide, rfl⟩)⟩

/-- C3: when the first argument opens and the parser returns (with any status)
leaving the `yyin` slot as it found it, the stream `main` opened is closed by
`main` before it returns: it is the one stream `main` closes, and no stream
opened during the run is left open. -/
theorem opened_file_closed_after_parse (sys : Sys) (argv : List String) (yyin0 : FilePtr)
    (n : Nat) (rc : Int) (hargc : 1 < argv.length)
    (hopen : sys.fopen argv[1] "r" = FilePtr.stream n)
    (hparse : sys.yyparse (FilePtr.stream n) = ParseOutcome.returned rc (FilePtr.stream n)) :
    (main sys argv yyin0).1 = Exit.code rc ∧
      closes (main sys argv yyin0).2.trace = [FilePtr.stream n] ∧
      leftOpen (main sys argv yyin0).2.trace = [] := by
  rw [main, mainFrom_openOk sys argv _ n hargc hopen,
    parseAndClose_returned_stream sys _ rc n hparse]
  simp [closes, leftOpen, account]

theorem opened_file_closed_after_parse_witness :
    1 < ["prog", "valid.txt"].length ∧
      rejectSys.fopen ["prog", "valid.txt"][1] "r" = FilePtr.stream 3 ∧
      rejectSys.yyparse (FilePtr.stream 3) = ParseOutcome.returned 1 (FilePtr.stream 3) ∧
      ((main rejectSys ["prog", "valid.txt"] FilePtr.null).1 = Exit.code 1 ∧
        closes (main rejectSys ["prog", "valid.txt"] FilePtr.null).2.trace = [FilePtr.stream 3] ∧
        leftOpen (main rejectSys ["prog", "valid.txt"] FilePtr.null).2.trace = []) :=
  ⟨by decide, by decide, rfl,
    opened_file_closed_after_parse rejectSys ["prog", "valid.txt"] FilePtr.null 3 1
      (by decide) (by decide) rfl⟩

/-- C4, counterexample: run with no file argument against a scanner that binds
standard input (stream `0`) into the null slot, `main` opens nothing and yet
closes standard input, so "closes a stream" and "opened a file" differ. The
same happens when the slot holds standard input from the start and the parser
leaves it alone. -/
theorem close_keyed_off_open_counterexample :
    ["prog"].length ≤ 1 ∧
      opens (main flexSys ["prog"] FilePtr.null).2.trace = [] ∧
      (main flexSys ["prog"] FilePtr.null).2.yyin = FilePtr.stream 0 ∧
      closes (main flexSys ["prog"] FilePtr.null).2.trace = [FilePtr.stream 0] ∧
      ¬ (closes (main flexSys ["prog"] FilePtr.null).2.trace ≠ [] ↔
          opens (main flexSys ["prog"] FilePtr.null).2.trace ≠ []) ∧
      opens (main rejectSys ["prog"] (FilePtr.stream 0)).2.trace = [] ∧
      closes (main rejectSys ["prog"] (FilePtr.stream 0)).2.trace = [FilePtr.stream 0] := by
  decide

/-- C4, amended: the final close is keyed off the value the `yyin` slot holds
when the parse call returns. For every run: `main` closes a stream if and only
if the parser was called, returned, and left a non-null value in the slot;
whatever `main` closes is the one stream the slot holds at the end; no stream
is closed when the open fails; none when the parse call does not return; and
when the parser returns leaving `yyinAfter` in the slot, `main` closes nothing
if `yyinAfter` is null and exactly `yyinAfter` otherwise. -/
theorem close_keyed_off_slot_after_parse (sys : Sys) (argv : List String) (yyin0 : FilePtr) :
    (closes (main sys argv yyin0).2.trace ≠ [] ↔
        ∃ y rc yyinAfter, parseCalls (main sys argv yyin0).2.trace = [y] ∧
          sys.yyparse y = ParseOutcome.returned rc yyinAfter ∧ yyinAfter ≠ FilePtr.null) ∧
      (∀ f, f ∈ closes (main sys argv yyin0).2.trace →
        closes (main sys argv yyin0).2.trace = [f] ∧ (main sys argv yyin0).2.yyin = f) ∧
      ((∃ h : 1 < argv.length, sys.fopen argv[1] "r" = FilePtr.null) →
        closes (main sys argv yyin0).2.trace = []) ∧
      (((argv.length ≤ 1 ∧ sys.yyparse yyin0 = ParseOutcome.nonLocal) ∨
          (∃ h : 1 < argv.length, sys.fopen argv[1] "r" ≠ FilePtr.null ∧
            sys.yyparse (sys.fopen argv[1] "r") = ParseOutcome.nonLocal)) →
        closes (main sys argv yyin0).2.trace = []) ∧
      (∀ rc yyinAfter,
        ((argv.length ≤ 1 ∧ sys.yyparse yyin0 = ParseOutcome.returned rc yyinAfter) ∨
          (∃ h : 1 < argv.length, sys.fopen argv[1] "r" ≠ FilePtr.null ∧
            sys.yyparse (sys.fopen argv[1] "r") = ParseOutcome.returned rc yyinAfter)) →
        (main sys argv yyin0).2.yyin = yyinAfter ∧
          closes (main sys argv yyin0).2.trace =
            (if yyinAfter = FilePtr.null then [] else [yyinAfter])) := by
  rcases main_run_kinds sys argv yyin0 with
    ⟨⟨hargc, hfail⟩, hpc, hcl⟩ | ⟨y, hy, hpc, ⟨hp, hcl⟩ | ⟨rc, ya, hp, hfin, hcl⟩⟩
  · -- the open fails
    refine ⟨?_, ?_, fun _ => hcl, fun _ => hcl, ?_⟩
    · rw [hcl, hpc]
      simp
    · rw [hcl]
      simp
    · rintro rc ya (⟨hle, _⟩ | ⟨_, hne, _⟩)
      · omega
      · exact absurd hfail hne
  · -- the parse call does not return
    refine ⟨?_, ?_, fun _ => hcl, fun _ => hcl, ?_⟩
    · rw [hcl, hpc]
      constructor
      · intro h
        exact absurd rfl h
      · rintro ⟨z, rc, ya, hz, hret, _⟩
        have hzy : y = z := by simpa using hz
        rw [← hzy, hp] at hret
        cases hret
    · rw [hcl]
      simp
    · rintro rc ya (⟨hle, hret⟩ | ⟨hlt, hne, hret⟩)
      · rcases hy with ⟨_, hy0⟩ | ⟨hlt, _, _⟩
        · rw [hy0, hret] at hp
          cases hp
        · omega
      · rcases hy with ⟨hle, _⟩ | ⟨_, _, hyf⟩
        · omega
        · rw [hyf, hret] at hp
          cases hp
  · -- the parse call returns
    have hret_of : ∀ rc2 ya2,
        ((argv.length ≤ 1 ∧ sys.yyparse yyin0 = ParseOutcome.returned rc2 ya2) ∨
          (∃ h : 1 < argv.length, sys.fopen argv[1] "r" ≠ FilePtr.null ∧
            sys.yyparse (sys.fopen argv[1] "r") = ParseOutcome.returned rc2 ya2)) →
        ya2 = ya := by
      rintro rc2 ya2 (⟨hle, hret⟩ | ⟨hlt, hne, hret⟩)
      · rcases hy with ⟨_, hy0⟩ | ⟨hlt, _, _⟩
        · rw [hy0, hret] at hp
          cases hp
          rfl
        · omega
      · rcases hy with ⟨hle, _⟩ | ⟨_, _, hyf⟩
        · omega
        · rw [hyf, hret] at hp
          cases hp
          rfl
    refine ⟨?_, ?_, ?_, ?_, ?_⟩
    · rw [hcl, hpc]
      constructor
      · intro h
        refine ⟨y, rc, ya, rfl, hp, ?_⟩
        intro hnull
        rw [hnull] at h
        simp at h
      · rintro ⟨z, rc2, ya2, hz, hret, hne⟩
        have hzy : y = z := by simpa using hz
        rw [← hzy, hp] at hret
        cases hret
        simp [hne]
    · intro f hf
      rw [hcl] at hf ⊢
      rw [hfin]
      by_cases hnull : ya = FilePtr.null
      · simp [hnull] at hf
      · simp [hnull] at hf
        simp [hnull, hf]
    · rintro ⟨hargc, hfail⟩
      rcases hy with ⟨hle, _⟩ | ⟨_, hne, _⟩
      · omega
      · exact absurd hfail hne
    · rintro (⟨hle, hnl⟩ | ⟨hlt, hne, hnl⟩)
      · rcases hy with ⟨_, hy0⟩ | ⟨hlt, _, _⟩
        · rw [hy0, hnl] at hp
          cases hp
        · omega
      · rcases hy with ⟨hle, _⟩ | ⟨_, _, hyf⟩
        · omega
        · rw [hyf, hnl] at hp
          cases hp
    · intro rc2 ya2 h
      rw [hret_of rc2 ya2 h]
      exact ⟨hfin, hcl⟩

theorem close_keyed_off_slot_after_parse_witness :
    closes (main flexSys ["prog", "missing.txt"] FilePtr.null).2.trace = [] ∧
      closes (main exitingSys ["prog"] FilePtr.null).2.trace = [] ∧
      ((main flexSys ["prog"] FilePtr.null).2.yyin = FilePtr.stream 0 ∧
        closes (main flexSys ["prog"] FilePtr.null).2.trace =
          (if FilePtr.stream 0 = FilePtr.null then [] else [FilePtr.stream 0])) ∧
      ((main rejectSys ["prog"] FilePtr.null).2.yyin = FilePtr.null ∧
        closes (main rejectSys ["prog"] FilePtr.null).2.trace =
          (if FilePtr.null = FilePtr.null then [] else [FilePtr.null])) :=
  ⟨(close_keyed_off_slot_after_parse flexSys ["prog", "missing.txt"] FilePtr.null).2.2.1
      ⟨by decide, by decide⟩,
    (close_keyed_off_slot_after_parse exitingSys ["prog"] FilePtr.null).2.2.2.1
      (Or.inl ⟨by decide, rfl⟩),
    (close_keyed_off_slot_after_parse flexSys ["prog"] FilePtr.null).2.2.2.2
      0 (FilePtr.stream 0) (Or.inl ⟨by decide, rfl⟩),
    (close_keyed_off_slot_after_parse rejectSys ["prog"] FilePtr.null).2.2.2.2
      1 FilePtr.null (Or.inl ⟨by decide, rfl⟩)⟩

/-- C5: when no open fails, `main` calls `yyparse` exactly once. What `main` does
before that call is exactly the binding of the input: with a file argument the
call `fopen(argv[1], "r")` followed by the assignment of its result to `yyin`,
and the parser is called on that result; with no file argument nothing, and the
parser is called on the slot as it was at the start. What `main` does after the
call is nothing or one `fclose`: no `fclose` comes before the call, no `fopen`
and no assignment to `yyin` after it. -/
theorem parse_invoked_once_after_bind_before_close (sys : Sys) (argv : List String)
    (yyin0 : FilePtr) (hok : ∀ h : 1 < argv.length, sys.fopen argv[1] "r" ≠ FilePtr.null) :
    ∃ pre y post,
      (main sys argv yyin0).2.trace = pre ++ [Event.yyparse y] ++ post ∧
      parseCalls (main sys argv yyin0).2.trace = [y] ∧
      parseCalls pre = [] ∧ closes pre = [] ∧
      parseCalls post = [] ∧ opens post = [] ∧ slotWrites post = [] ∧
      (∀ h : 1 < argv.length,
        pre = [Event.fopen argv[1] "r" (sys.fopen argv[1] "r"),
            Event.setYyin (sys.fopen argv[1] "r")] ∧
          y = sys.fopen argv[1] "r") ∧
      (argv.length ≤ 1 → pre = [] ∧ y = yyin0) ∧
      (post = [] ∨ ∃ f, post = [Event.fclose f]) := by
  by_cases hargc : 1 < argv.length
  · rcases FilePtr.eq_null_or_stream (sys.fopen argv[1] "r") with hn | ⟨n, hn⟩
    · exact absurd hn (hok hargc)
    · obtain ⟨post, htr, hp, ho, hw, hshape⟩ := parseAndClose_post sys
        { yyin := FilePtr.stream n
          trace := [] ++ [Event.fopen argv[1] "r" (FilePtr.stream n)] ++
            [Event.setYyin (FilePtr.stream n)]
          diag := "" }
      refine ⟨[Event.fopen argv[1] "r" (FilePtr.stream n), Event.setYyin (FilePtr.stream n)],
        FilePtr.stream n, post, ?_, ?_, rfl, rfl, hp, ho, hw, ?_, ?_, hshape⟩
      · rw [main, mainFrom_openOk sys argv _ n hargc hn, htr]
        simp
      · rw [main, mainFrom_openOk sys argv _ n hargc hn, htr]
        simp [parseCalls, hp]
      · intro _
        simp [hn]
      · intro hle
        omega
  · have hle : argv.length ≤ 1 := by omega
    obtain ⟨post, htr, hp, ho, hw, hshape⟩ := parseAndClose_post sys
      { yyin := yyin0, trace := [], diag := "" }
    refine ⟨[], yyin0, post, ?_, ?_, rfl, rfl, hp, ho, hw, ?_, ?_, hshape⟩
    · rw [main, mainFrom_noFile sys argv _ hle, htr]
    · rw [main, mainFrom_noFile sys argv _ hle, htr]
      simp [parseCalls, hp]
    · intro h
      exact absurd h hargc
    · intro _
      exact ⟨rfl, rfl⟩

theorem parse_invoked_once_after_bind_before_close_witness :
    (∀ h : 1 < ["prog", "valid.txt"].length,
        flexSys.fopen ["prog", "valid.txt"][1] "r" ≠ FilePtr.null) ∧
      ∃ pre y post,
        (main flexSys ["prog", "valid.txt"] FilePtr.null).2.trace =
          pre ++ [Event.yyparse y] ++ post ∧
        parseCalls (main flexSys ["prog", "valid.txt"] FilePtr.null).2.trace = [y] ∧
        parseCalls pre = [] ∧ closes pre = [] ∧
        parseCalls post = [] ∧ opens post = [] ∧ slotWrites post = [] ∧
        (∀ h : 1 < ["prog", "valid.txt"].length,
          pre = [Event.fopen ["prog", "valid.txt"][1] "r"
                (flexSys.fopen ["prog", "valid.txt"][1] "r"),
              Event.setYyin (flexSys.fopen ["prog", "valid.txt"][1] "r")] ∧
            y = flexSys.fopen ["prog", "valid.txt"][1] "r") ∧
        (["prog", "valid.txt"].length ≤ 1 → pre = [] ∧ y = FilePtr.null) ∧
        (post = [] ∨ ∃ f, post = [Event.fclose f]) :=
  ⟨fun _ => by simp [flexSys],
    parse_invoked_once_after_bind_before_close flexSys ["prog", "valid.txt"] FilePtr.null
      (fun _ => by simp [flexSys])⟩

/-- C6: when the first argument opens, the one `fopen` call is
`fopen(argv[1], "r")`, and at the call of `yyparse` the `yyin` slot holds the
stream that call returned, whatever the slot held at the start. -/
theorem parser_called_on_opened_file (sys : Sys) (argv : List String) (yyin0 : FilePtr)
    (n : Nat) (hargc : 1 < argv.length)
    (hopen : sys.fopen argv[1] "r" = FilePtr.stream n) :
    opens (main sys argv yyin0).2.trace = [(argv[1], "r", FilePtr.stream n)] ∧
      parseCalls (main sys argv yyin0).2.trace = [FilePtr.stream n] ∧
      ∃ post, (main sys argv yyin0).2.trace =
        [Event.fopen argv[1] "r" (FilePtr.stream n), Event.setYyin (FilePtr.stream n),
          Event.yyparse (FilePtr.stream n)] ++ post := by
  obtain ⟨post, htr, hp, ho, _⟩ := parseAndClose_trace sys
    { yyin := FilePtr.stream n
      trace := [] ++ [Event.fopen argv[1] "r" (FilePtr.stream n)] ++
        [Event.setYyin (FilePtr.stream n)]
      diag := "" }
  rw [main, mainFrom_openOk sys argv _ n hargc hopen, htr]
  refine ⟨?_, ?_, post, ?_⟩
  · simp [opens, ho]
  · simp [parseCalls, hp]
  · simp

theorem parser_called_on_opened_file_witness :
    1 < ["prog", "valid.txt"].length ∧
      flexSys.fopen ["prog", "valid.txt"][1] "r" = FilePtr.stream 3 ∧
      (opens (main flexSys ["prog", "valid.txt"] (FilePtr.stream 0)).2.trace =
          [(["prog", "valid.txt"][1], "r", FilePtr.stream 3)] ∧
        parseCalls (main flexSys ["prog", "valid.txt"] (FilePtr.stream 0)).2.trace =
          [FilePtr.stream 3] ∧
        ∃ post, (main flexSys ["prog", "valid.txt"] (FilePtr.stream 0)).2.trace =
          [Event.fopen ["prog", "valid.txt"][1] "r" (FilePtr.stream 3),
            Event.setYyin (FilePtr.stream 3), Event.yyparse (FilePtr.stream 3)] ++ post) :=
  ⟨by decide, by decide,
    parser_called_on_opened_file flexSys ["prog", "valid.txt"] (FilePtr.stream 0) 3
      (by decide) (by decide)⟩

/-- C7: with no argument beyond the program name, `main` calls no `fopen` and
never assigns `yyin`; `yyparse` is called with the slot holding the value it
had at process start. -/
theorem no_argument_leaves_slot_unchanged (sys : Sys) (argv : List String) (yyin0 : FilePtr)
    (hargc : argv.length ≤ 1) :
    opens (main sys argv yyin0).2.trace = [] ∧
      slotWrites (main sys argv yyin0).2.trace = [] ∧
      parseCalls (main sys argv yyin0).2.trace = [yyin0] := by
  obtain ⟨post, htr, hp, ho, hw⟩ := parseAndClose_trace sys
    { yyin := yyin0, trace := [], diag := "" }
  rw [main, mainFrom_noFile sys argv _ hargc, htr]
  simp [opens, slotWrites, parseCalls, hp, ho, hw]

theorem no_argument_leaves_slot_unchanged_witness :
    ["prog"].length ≤ 1 ∧
      (opens (main flexSys ["prog"] (FilePtr.stream 0)).2.trace = [] ∧
        slotWrites (main flexSys ["prog"] (FilePtr.stream 0)).2.trace = [] ∧
        parseCalls (main flexSys ["prog"] (FilePtr.stream 0)).2.trace = [FilePtr.stream 0]) :=
  ⟨by decide, no_argument_leaves_slot_unchanged flexSys ["prog"] (FilePtr.stream 0) (by decide)⟩

/-- C8: two argument lists that both carry an argument beyond the program name
and agree on the first one give the same run: the same exit, the same final
slot, the same operations in the same order (one `fopen`, the same parser
calls, the same `fclose`) and the same diagnostic text. -/
theorem extra_arguments_ignored (sys : Sys) (a b : List String) (yyin0 : FilePtr)
    (ha : 1 < a.length) (hb : 1 < b.length) (hab : a[1] = b[1]) :
    main sys a yyin0 = main sys b yyin0 ∧
      (opens (main sys a yyin0).2.trace).length = 1 := by
  rcases FilePtr.eq_null_or_stream (sys.fopen a[1] "r") with hn | ⟨n, hn⟩
  · have hn2 : sys.fopen b[1] "r" = FilePtr.null := hab ▸ hn
    rw [main, main, mainFrom_openFails sys a _ ha hn, mainFrom_openFails sys b _ hb hn2, hab]
    simp [opens]
  · have hn2 : sys.fopen b[1] "r" = FilePtr.stream n := hab ▸ hn
    obtain ⟨post, htr, _, ho, _⟩ := parseAndClose_trace sys
      { yyin := FilePtr.stream n
        trace := [] ++ [Event.fopen b[1] "r" (FilePtr.stream n)] ++
          [Event.setYyin (FilePtr.stream n)]
        diag := "" }
    rw [main, main, mainFrom_openOk sys a _ n ha hn, mainFrom_openOk sys b _ n hb hn2, hab, htr]
    simp [opens, ho]

theorem extra_arguments_ignored_witness :
    1 < ["prog", "valid.txt"].length ∧ 1 < ["a.out", "valid.txt", "-v", "more"].length ∧
      ["prog", "valid.txt"][1] = ["a.out", "valid.txt", "-v", "more"][1] ∧
      (main flexSys ["prog", "valid.txt"] FilePtr.null =
          main flexSys ["a.out", "valid.txt", "-v", "more"] FilePtr.null ∧
        (opens (main flexSys ["prog", "valid.txt"] FilePtr.null).2.trace).length = 1) :=
  ⟨by decide, by decide, by decide,
    extra_arguments_ignored flexSys ["prog", "valid.txt"] ["a.out", "valid.txt", "-v", "more"]
      FilePtr.null (by decide) (by decide) (by decide)⟩

/-- C9: for a path that opens, the exit of `main` does not depend on the state
it is started in (slot, earlier operations, earlier diagnostics): any two runs
with the same arguments, file system and parser end with the same exit code,
also a second run started from the state the first one left. -/
theorem same_path_same_exit_code (sys : Sys) (argv : List String)
    (hargc : 1 < argv.length) (hvalid : sys.fopen argv[1] "r" ≠ FilePtr.null) :
    (∀ s t : State, (mainFrom sys argv s).1 = (mainFrom sys argv t).1) ∧
      (∀ y z : FilePtr, (main sys argv y).1 = (main sys argv z).1) ∧
      (∀ y : FilePtr, (mainFrom sys argv (main sys argv y).2).1 = (main sys argv y).1) := by
  have key : ∀ s t : State, (mainFrom sys argv s).1 = (mainFrom sys argv t).1 := by
    intro s t
    rcases FilePtr.eq_null_or_stream (sys.fopen argv[1] "r") with hn | ⟨n, hn⟩
    · exact absurd hn hvalid
    · rw [mainFrom_openOk sys argv s n hargc hn, mainFrom_openOk sys argv t n hargc hn]
      cases hp : sys.yyparse (FilePtr.stream n) with
      | nonLocal => simp [parseAndClose, hp]
      | returned rc y => simp [parseAndClose, hp]
  exact ⟨key, fun y z => key _ _, fun y => key _ _⟩

theorem same_path_same_exit_code_witness :
    1 < ["prog", "valid.txt"].length ∧
      flexSys.fopen ["prog", "valid.txt"][1] "r" ≠ FilePtr.null ∧
      ((∀ s t : State,
          (mainFrom flexSys ["prog", "valid.txt"] s).1 =
            (mainFrom flexSys ["prog", "valid.txt"] t).1) ∧
        (∀ y z : FilePtr,
          (main flexSys ["prog", "valid.txt"] y).1 = (main flexSys ["prog", "valid.txt"] z).1) ∧
        (∀ y : FilePtr,
          (mainFrom flexSys ["prog", "valid.txt"] (main flexSys ["prog", "valid.txt"] y).2).1 =
            (main flexSys ["prog", "valid.txt"] y).1)) :=
  ⟨by decide, by decide,
    same_path_same_exit_code flexSys ["prog", "valid.txt"] (by decide) (by decide)⟩

/-- C10, counterexample: the first argument opens as stream `3` and the parser
leaves the call non-locally; `main` performs no `fclose` and stream `3` is
left open. -/
theorem close_on_nonlocal_exit_counterexample :
    1 < ["prog", "valid.txt"].length ∧
      exitingSys.fopen ["prog", "valid.txt"][1] "r" = FilePtr.stream 3 ∧
      exitingSys.yyparse (FilePtr.stream 3) = ParseOutcome.nonLocal ∧
      (main exitingSys ["prog", "valid.txt"] FilePtr.null).1 = Exit.nonLocal ∧
      Event.fclose (FilePtr.stream 3) ∉ (main exitingSys ["prog", "valid.txt"] FilePtr.null).2.trace ∧
      closes (main exitingSys ["prog", "valid.txt"] FilePtr.null).2.trace = [] ∧
      leftOpen (main exitingSys ["prog", "valid.txt"] FilePtr.null).2.trace = [FilePtr.stream 3] := by
  decide

/-- C10, amended: when the first argument opens and the parse call leaves
non-locally, control leaves `main` the same way right after the call: the
operations of the run are the `fopen`, the assignment to `yyin` and the call of
`yyparse`, `main` closes nothing, and the stream it opened is left open. -/
theorem no_close_on_nonlocal_exit (sys : Sys) (argv : List String) (yyin0 : FilePtr)
    (n : Nat) (hargc : 1 < argv.length)
    (hopen : sys.fopen argv[1] "r" = FilePtr.stream n)
    (hparse : sys.yyparse (FilePtr.stream n) = ParseOutcome.nonLocal) :
    (main sys argv yyin0).1 = Exit.nonLocal ∧
      (main sys argv yyin0).2.trace =
        [Event.fopen argv[1] "r" (FilePtr.stream n), Event.setYyin (FilePtr.stream n),
          Event.yyparse (FilePtr.stream n)] ∧
      closes (main sys argv yyin0).2.trace = [] ∧
      leftOpen (main sys argv yyin0).2.trace = [FilePtr.stream n] := by
  rw [main, mainFrom_openOk sys argv _ n hargc hopen, parseAndClose_nonLocal sys _ hparse]
  simp [State.emit, closes, leftOpen, account]

theorem no_close_on_nonlocal_exit_witness :
    1 < ["prog", "valid.txt"].length ∧
      exitingSys.fopen ["prog", "valid.txt"][1] "r" = FilePtr.stream 3 ∧
      exitingSys.yyparse (FilePtr.stream 3) = ParseOutcome.nonLocal ∧
      ((main exitingSys ["prog", "valid.txt"] (FilePtr.stream 0)).1 = Exit.nonLocal ∧
        (main exitingSys ["prog", "valid.txt"] (FilePtr.stream 0)).2.trace =
          [Event.fopen ["prog", "valid.txt"][1] "r" (FilePtr.stream 3),
            Event.setYyin (FilePtr.stream 3), Event.yyparse (FilePtr.stream 3)] ∧
        closes (main exitingSys ["prog", "valid.txt"] (FilePtr.stream 0)).2.trace = [] ∧
        leftOpen (main exitingSys ["prog", "valid.txt"] (FilePtr.stream 0)).2.trace =
          [FilePtr.stream 3]) :=
  ⟨by decide, by decide, rfl,
    no_close_on_nonlocal_exit exitingSys ["prog", "valid.txt"] (FilePtr.stream 0) 3
      (by decide) (by decide) rfl⟩

end MiniCompiler
